import Mathlib

/-!
Verification development for the knowledge-sync service
(`joyo-agents-knowledge-sync`): a shallow embedding of the incremental
sync engine (change classification, upload/delete pipeline, stale-record
deletion, resumable orchestrator loop, rate limiter, retry executor)
together with proofs about it.

Conventions of the embedding:
* Timestamps are ISO-8601 strings compared with the string order, exactly as
  the TypeScript code compares them (`page.lastEditedTime > existing.lastModified`).
* The MD5 digest `calculateContentHash` is abstracted as a parameter
  `hash : String → String`; every property proved here depends only on
  equality of digests, never on their value.
* Effectful methods are embedded as pure functions that return the ordered
  list of collaborator calls (`SyncEvent`s) they issue, so that ordering
  claims ("record persisted before the index create call") are statements
  about list positions.
* Collaborator results (page content, uploaded file ids, user names,
  permalinks, wall-clock timestamps) are inputs of the embedded functions.
-/

namespace KnowledgeSync

/-- A persisted `KnowledgeDocument` record (src/types plus the
`lastSeenAt` / `replyCount` / `editedTs` fields written by the streaming
sync code). `vectorStoreFileId = ""` means the upload was never confirmed.
`lastSeenAt`, `replyCount`, `editedTs` are optional fields on the stored
document. -/
structure KnowledgeDocument where
  sourceType : String
  sourceId : String
  vectorStoreFileId : String
  title : String
  url : String
  lastModified : String
  contentHash : String
  createdAt : String
  updatedAt : String
  lastSeenAt : Option String
  replyCount : Option Nat
  editedTs : Option String
deriving Repr, DecidableEq

/-- A partial update passed to `firestore.updateDocument` (Firestore
merges only the present fields). `none` means the field is not touched. -/
structure DocUpdate where
  vectorStoreFileId : Option String := none
  title : Option String := none
  lastModified : Option String := none
  contentHash : Option String := none
  lastSeenAt : Option String := none
  replyCount : Option Nat := none
  editedTs : Option String := none
  updatedAt : Option String := none
deriving Repr, DecidableEq

/-- Applying a partial update to a stored document. -/
def applyUpdate (d : KnowledgeDocument) (u : DocUpdate) : KnowledgeDocument :=
  { d with
    vectorStoreFileId := u.vectorStoreFileId.getD d.vectorStoreFileId
    title := u.title.getD d.title
    lastModified := u.lastModified.getD d.lastModified
    contentHash := u.contentHash.getD d.contentHash
    lastSeenAt := (u.lastSeenAt.map some).getD d.lastSeenAt
    replyCount := (u.replyCount.map some).getD d.replyCount
    editedTs := (u.editedTs.map some).getD d.editedTs
    updatedAt := u.updatedAt.getD d.updatedAt }

/-- The collaborator calls the sync engine issues, in program order.
`saveDocument` / `updateDocument` / `markDocumentSeen` /
`deleteDocumentBySource` / `deleteDocument` go to the record store;
`uploadFile` / `deleteFile` go to the external index (OpenAI vector
store). -/
inductive SyncEvent where
  | saveDocument (doc : KnowledgeDocument)
  | uploadFile (content : String) (filename : String)
  | updateDocument (source : String) (sourceId : String) (fields : DocUpdate)
  | deleteFile (fileId : String)
  | markDocumentSeen (source : String) (sourceId : String)
  | deleteDocumentBySource (source : String) (sourceId : String)
  | deleteDocument (docId : String)
deriving Repr, DecidableEq

/-- The outcome of classifying one source item against its stored record. -/
inductive Classification where
  | isNew
  | incomplete
  | updated
  | unchanged
deriving Repr, DecidableEq

/-- JavaScript truthiness of an optional string: `undefined`/`null` and the
empty string are falsy. -/
def strTruthy : Option String → Bool
  | some s => ¬ s = ""
  | none => false

/-- JavaScript `<` on strings (lexicographic); stated on the character
lists, which is equivalent to `String.lt` (`String.lt_iff_toList_lt`) and,
unlike it, computable by the kernel. -/
def jsStrLt (a b : String) : Bool :=
  decide (a.data < b.data)

/-- `jsStrLt` agrees with the string order. -/
theorem jsStrLt_iff (a b : String) : jsStrLt a b = true ↔ a < b := by
  rw [jsStrLt, String.lt_iff_toList_lt]
  simp [String.toList]

/-- `jsStrLt` is false exactly when the order does not hold. -/
theorem jsStrLt_eq_false_iff (a b : String) : jsStrLt a b = false ↔ ¬ a < b := by
  rw [← jsStrLt_iff]
  cases h : jsStrLt a b <;> simp

/-- `VectorStoreProcessor.formatNotionContent`. -/
def formatNotionContent (url title content : String) : String :=
  "[SOURCE:notion|URL:" ++ url ++ "|TITLE:" ++ title ++ "]\n\n" ++ content

/-- `VectorStoreProcessor.formatSlackContent`. -/
def formatSlackContent (url channelName authorName timestamp content : String)
    (threadReplies : List (String × String)) : String :=
  let base := "[SOURCE:slack|URL:" ++ url ++ "|TITLE:Slack message in #" ++ channelName
    ++ "]\n\nAuthor: " ++ authorName ++ "\nChannel: #" ++ channelName
    ++ "\nTime: " ++ timestamp ++ "\n\n" ++ content
  if 0 < threadReplies.length then
    base ++ "\n\n--- Thread Replies ---"
      ++ String.join (threadReplies.map (fun r => "\n" ++ r.1 ++ ": " ++ r.2))
  else base

/-- Page metadata produced by `NotionSync.filterPages`. -/
structure NotionPageMeta where
  id : String
  title : String
  url : String
  lastEditedTime : String
deriving Repr, DecidableEq

/-- The document literal `NotionSync.syncNewPage` persists before uploading:
`vectorStoreFileId` is the empty string. -/
def newPageDoc (hash : String → String) (page : NotionPageMeta)
    (syncStartTime content now : String) : KnowledgeDocument :=
  { sourceType := "notion"
    sourceId := page.id
    vectorStoreFileId := ""
    title := page.title
    url := page.url
    lastModified := page.lastEditedTime
    contentHash := hash content
    createdAt := now
    updatedAt := now
    lastSeenAt := some syncStartTime
    replyCount := none
    editedTs := none }

/-- `NotionSync.syncNewPage`: persist the record without a file id, upload,
then attach the returned file id. `content` is the page content returned by
`getPageContent`, `fileId` the id returned by the upload, `now` the
wall-clock ISO timestamp. -/
def syncNewPage (hash : String → String) (page : NotionPageMeta)
    (syncStartTime content fileId now : String) : List SyncEvent :=
  [ SyncEvent.saveDocument (newPageDoc hash page syncStartTime content now),
    SyncEvent.uploadFile (formatNotionContent page.url page.title content)
      ("notion_" ++ page.id ++ ".txt"),
    SyncEvent.updateDocument "notion" page.id { vectorStoreFileId := some fileId } ]

/-- `NotionSync.syncUpdatedPage`: if the fresh digest equals the stored one,
only metadata is updated; otherwise the old artifact is deleted (when one
exists) and the content re-uploaded. -/
def syncUpdatedPage (hash : String → String) (page : NotionPageMeta)
    (existing : KnowledgeDocument) (syncStartTime content fileId : String) :
    List SyncEvent :=
  let contentHash := hash content
  if contentHash = existing.contentHash then
    [ SyncEvent.updateDocument "notion" page.id
        { lastModified := some page.lastEditedTime, lastSeenAt := some syncStartTime } ]
  else
    (if ¬ existing.vectorStoreFileId = "" then
      [SyncEvent.deleteFile existing.vectorStoreFileId] else [])
    ++ [ SyncEvent.uploadFile (formatNotionContent page.url page.title content)
          ("notion_" ++ page.id ++ ".txt"),
         SyncEvent.updateDocument "notion" page.id
          { vectorStoreFileId := some fileId
            title := some page.title
            lastModified := some page.lastEditedTime
            contentHash := some contentHash
            lastSeenAt := some syncStartTime } ]

/-- The classification decision embedded in `NotionSync.processPage`:
no record → new; empty `vectorStoreFileId` → incomplete;
`page.lastEditedTime > existing.lastModified` → updated; else unchanged. -/
def classifyPage (existing : Option KnowledgeDocument) (lastEditedTime : String) :
    Classification :=
  match existing with
  | none => Classification.isNew
  | some ex =>
    if ex.vectorStoreFileId = "" then Classification.incomplete
    else if jsStrLt ex.lastModified lastEditedTime then Classification.updated
    else Classification.unchanged

/-- `NotionSync.processPage`: classify the page against the stored record
and dispatch; returns the issued events together with the branch taken. -/
def processPage (hash : String → String) (page : NotionPageMeta)
    (existing : Option KnowledgeDocument)
    (syncStartTime content fileId now : String) :
    List SyncEvent × Classification :=
  match existing with
  | none =>
    (syncNewPage hash page syncStartTime content fileId now, Classification.isNew)
  | some ex =>
    if ex.vectorStoreFileId = "" then
      (syncNewPage hash page syncStartTime content fileId now, Classification.incomplete)
    else if jsStrLt ex.lastModified page.lastEditedTime then
      (syncUpdatedPage hash page ex syncStartTime content fileId, Classification.updated)
    else
      ([SyncEvent.markDocumentSeen "notion" page.id], Classification.unchanged)

/-! ### Slack sync embedding (src/src/sync/slack.sync.ts) -/

/-- `MIN_MESSAGE_LENGTH` in slack.sync.ts. -/
def MIN_MESSAGE_LENGTH : Nat := 50

/-- `CHANNEL_BLACKLIST` in slack.sync.ts. -/
def CHANNEL_BLACKLIST : List String :=
  [ "linear-updates", "github-updates", "new_update_alert", "service-outages",
    "google-cloud-outages", "google-ads-outages" ]

/-- `CHANNEL_BLACKLIST_PATTERNS` in slack.sync.ts (matched as suffixes). -/
def CHANNEL_BLACKLIST_PATTERNS : List String := ["-purchases", "-updates"]

/-- `BOT_WHITELIST_CHANNELS` in slack.sync.ts. -/
def BOT_WHITELIST_CHANNELS : List String := ["daily-standup"]

/-- `isChannelBlacklisted` in slack.sync.ts. -/
def isChannelBlacklisted (channelName : String) : Bool :=
  CHANNEL_BLACKLIST.contains channelName
  || CHANNEL_BLACKLIST_PATTERNS.any (fun p => p.data.isSuffixOf channelName.data)

/-- A Slack channel as listed by `getAllChannels`. -/
structure SlackChannel where
  id : String
  name : String
deriving Repr, DecidableEq

/-- One attachment of a Slack message, with the fields
`extractMessageText` reads. -/
structure SlackAttachment where
  pretext : Option String := none
  title : Option String := none
  text : Option String := none
  fallback : Option String := none
  isAppUnfurl : Bool := false
deriving Repr, DecidableEq

/-- The fields of a raw Slack history message that `processMessage` and its
helpers read (`msg.edited?.ts` is flattened into `editedTsRaw`). -/
structure SlackMsg where
  ts : Option String := none
  text : Option String := none
  attachments : List SlackAttachment := []
  botId : Option String := none
  subtype : Option String := none
  user : Option String := none
  username : Option String := none
  threadTs : Option String := none
  replyCount : Option Nat := none
  editedTsRaw : Option String := none
deriving Repr, DecidableEq

/-- The text parts one attachment contributes in `extractMessageText`. -/
def attachmentParts (att : SlackAttachment) : List String :=
  (if strTruthy att.pretext then [att.pretext.getD ""] else [])
  ++ (if strTruthy att.title && strTruthy att.text then
        [att.title.getD "" ++ ": " ++ att.text.getD ""]
      else if strTruthy att.text then [att.text.getD ""]
      else if strTruthy att.fallback && !att.isAppUnfurl then [att.fallback.getD ""]
      else [])

/-- The test `msg.text.trim().length > 0`: the text has a non-whitespace
character (stated on the character list so the kernel can evaluate it). -/
def trimNonempty (s : String) : Bool :=
  s.data.any (fun c => !c.isWhitespace)

/-- `SlackSync.extractMessageText`: the message text (when non-blank)
followed by the attachment texts, joined with blank lines. -/
def extractMessageText (msg : SlackMsg) : String :=
  let parts :=
    (if trimNonempty (msg.text.getD "") then [msg.text.getD ""] else [])
    ++ (msg.attachments.map attachmentParts).flatten
  String.intercalate "\n\n" parts

/-- `msg.edited?.ts || null`: the edit timestamp, with the empty string
normalised away exactly as the `||` does. -/
def editedTsOf (msg : SlackMsg) : Option String :=
  match msg.editedTsRaw with
  | some s => if s = "" then none else some s
  | none => none

/-- `SlackSync.hasMessageChanged`: new replies, or an edit timestamp that is
present and differs from the stored one. -/
def hasMessageChanged (existing : KnowledgeDocument) (replyCount : Nat)
    (editedTs : Option String) : Bool :=
  if existing.replyCount.getD 0 < replyCount then true
  else
    match editedTs with
    | some ts => ¬ existing.editedTs = some ts
    | none => false

/-- JavaScript `replace('.', '_')` with a string pattern: replace the
first dot only. -/
def replaceFirstDot : List Char → List Char
  | [] => []
  | c :: cs => if c = '.' then '_' :: cs else c :: replaceFirstDot cs

/-- The Firestore source id of a Slack message:
`channel.id + '_' + msg.ts.replace('.', '_')`. -/
def slackSourceId (channel : SlackChannel) (ts : String) : String :=
  channel.id ++ "_" ++ String.mk (replaceFirstDot ts.data)

/-- The collaborator responses consumed while syncing one Slack message:
user-name lookups, thread replies, the permalink, the uploaded file id, the
`ts → ISO` conversion and the wall clock. -/
structure SlackCollab where
  userName : String → String
  threadReplies : List (String × String)
  permalink : String
  fileId : String
  tsToIso : String → String
  now : String

/-- `msg.user ? await this.getUserName(msg.user) : (msg.username || 'Unknown')`. -/
def slackAuthorName (collab : SlackCollab) (msg : SlackMsg) : String :=
  match msg.user with
  | some u => collab.userName u
  | none => if strTruthy msg.username then msg.username.getD "" else "Unknown"

/-- Thread replies are fetched only for a thread parent
(`msg.thread_ts === msg.ts && replyCount > 0`). -/
def slackRepliesUsed (collab : SlackCollab) (msg : SlackMsg) (replyCount : Nat) :
    List (String × String) :=
  if msg.threadTs = msg.ts && 0 < replyCount then collab.threadReplies else []

/-- The document literal `SlackSync.syncNewMessage` persists before
uploading: `vectorStoreFileId` is the empty string, and `editedTs` is only
included when present. -/
def newMessageDoc (hash : String → String) (collab : SlackCollab) (msg : SlackMsg)
    (channel : SlackChannel) (syncStartTime sourceId : String)
    (replyCount : Nat) (editedTs : Option String) : KnowledgeDocument :=
  let formatted := formatSlackContent collab.permalink channel.name
    (slackAuthorName collab msg) (collab.tsToIso (msg.ts.getD ""))
    (extractMessageText msg) (slackRepliesUsed collab msg replyCount)
  { sourceType := "slack"
    sourceId := sourceId
    vectorStoreFileId := ""
    title := "Slack message in #" ++ channel.name
    url := collab.permalink
    lastModified := collab.tsToIso (msg.ts.getD "")
    contentHash := hash formatted
    createdAt := collab.now
    updatedAt := collab.now
    lastSeenAt := some syncStartTime
    replyCount := some replyCount
    editedTs := editedTs }

/-- `SlackSync.syncNewMessage`: persist the record without a file id,
upload the formatted content, then attach the returned file id. -/
def syncNewMessage (hash : String → String) (collab : SlackCollab) (msg : SlackMsg)
    (channel : SlackChannel) (syncStartTime sourceId : String)
    (replyCount : Nat) (editedTs : Option String) : List SyncEvent :=
  let formatted := formatSlackContent collab.permalink channel.name
    (slackAuthorName collab msg) (collab.tsToIso (msg.ts.getD ""))
    (extractMessageText msg) (slackRepliesUsed collab msg replyCount)
  [ SyncEvent.saveDocument
      (newMessageDoc hash collab msg channel syncStartTime sourceId replyCount editedTs),
    SyncEvent.uploadFile formatted ("slack_" ++ sourceId ++ ".txt"),
    SyncEvent.updateDocument "slack" sourceId { vectorStoreFileId := some collab.fileId } ]

/-- `SlackSync.syncUpdatedMessage`: re-render; if the digest is unchanged,
update only metadata, otherwise delete the old artifact (when present) and
re-upload. -/
def syncUpdatedMessage (hash : String → String) (collab : SlackCollab) (msg : SlackMsg)
    (channel : SlackChannel) (existing : KnowledgeDocument) (syncStartTime : String)
    (replyCount : Nat) (editedTs : Option String) : List SyncEvent :=
  let formatted := formatSlackContent existing.url channel.name
    (slackAuthorName collab msg) (collab.tsToIso (msg.ts.getD ""))
    (extractMessageText msg) (slackRepliesUsed collab msg replyCount)
  let contentHash := hash formatted
  if contentHash = existing.contentHash then
    [ SyncEvent.updateDocument "slack" existing.sourceId
        { lastSeenAt := some syncStartTime
          replyCount := some replyCount
          editedTs := editedTs } ]
  else
    (if ¬ existing.vectorStoreFileId = "" then
      [SyncEvent.deleteFile existing.vectorStoreFileId] else [])
    ++ [ SyncEvent.uploadFile formatted ("slack_" ++ existing.sourceId ++ ".txt"),
         SyncEvent.updateDocument "slack" existing.sourceId
          { vectorStoreFileId := some collab.fileId
            contentHash := some contentHash
            updatedAt := some collab.now
            lastSeenAt := some syncStartTime
            replyCount := some replyCount
            editedTs := editedTs } ]

/-- The guard at the top of `SlackSync.processMessage`: a message is
silently dropped when its timestamp is missing, its extracted text is
blank or shorter than `MIN_MESSAGE_LENGTH`, it is a bot message outside a
whitelisted channel, or it carries a subtype other than `bot_message` in a
whitelisted channel. -/
def messageSkipped (msg : SlackMsg) (isBotWhitelisted : Bool) : Bool :=
  if ¬ strTruthy msg.ts then true
  else
    let text := extractMessageText msg
    if text = "" || text.length < MIN_MESSAGE_LENGTH then true
    else if strTruthy msg.botId && !isBotWhitelisted then true
    else if strTruthy msg.subtype
        && !(msg.subtype = some "bot_message" && isBotWhitelisted) then true
    else false

/-- `SlackSync.processMessage`: the skip guard, then classification against
the stored record and dispatch. Returns the events issued, the boolean the
method returns (counted as processed), and the branch taken when the
message was not skipped. -/
def processMessage (hash : String → String) (collab : SlackCollab) (msg : SlackMsg)
    (channel : SlackChannel) (isBotWhitelisted : Bool)
    (existing : Option KnowledgeDocument) (syncStartTime : String) :
    List SyncEvent × Bool × Option Classification :=
  if messageSkipped msg isBotWhitelisted then ([], false, none)
  else
    let sourceId := slackSourceId channel (msg.ts.getD "")
    let replyCount := msg.replyCount.getD 0
    let editedTs := editedTsOf msg
    match existing with
    | none =>
      (syncNewMessage hash collab msg channel syncStartTime sourceId replyCount editedTs,
        true, some Classification.isNew)
    | some ex =>
      if ex.vectorStoreFileId = "" then
        (syncNewMessage hash collab msg channel syncStartTime sourceId replyCount editedTs,
          true, some Classification.incomplete)
      else if hasMessageChanged ex replyCount editedTs then
        (syncUpdatedMessage hash collab msg channel ex syncStartTime replyCount editedTs,
          true, some Classification.updated)
      else
        ([SyncEvent.markDocumentSeen "slack" sourceId], false, some Classification.unchanged)

/-! ### Record store model

The Firestore document collection is modelled as a list of records keyed by
`(sourceType, sourceId)`.  The streaming-sync accessors of
`FirestoreService` (`getDocument`, `saveDocument`, `updateDocument`,
`markDocumentSeen`, `deleteDocumentBySource`, `getStaleDocuments`,
`getDocumentsWithoutLastSeen`) are the authority where their code is
available; the ones absent from the available service code are modelled
from the spec and marked so. -/

/-- Key equality used by the store: `(sourceType, sourceId)`. -/
def docKeyIs (source sourceId : String) (d : KnowledgeDocument) : Bool :=
  d.sourceType = source && d.sourceId = sourceId

/-- `FirestoreService.getDocument`: look up a record by its key. -/
def getDocument (store : List KnowledgeDocument) (source sourceId : String) :
    Option KnowledgeDocument :=
  store.find? (docKeyIs source sourceId)

/-- Modelled from the spec: `FirestoreService.getStaleDocuments` is absent
from the available service code; §6's `queryStaleBefore(sourceType,
watermark)` and the delete-phase description ("Query docs where
`lastSeenAt < syncStartTime`") define it as the records of the source whose
`lastSeenAt` is strictly before the watermark. Records without a
`lastSeenAt` are returned by the separate `getDocumentsWithoutLastSeen`
query and are not stale. -/
def getStaleDocuments (store : List KnowledgeDocument) (source watermark : String) :
    List KnowledgeDocument :=
  store.filter (fun d =>
    d.sourceType = source &&
      match d.lastSeenAt with
      | some t => jsStrLt t watermark
      | none => false)

/-- Modelled from the spec: `getDocumentsWithoutLastSeen` returns the
legacy records that lack a `lastSeenAt` field. -/
def getDocumentsWithoutLastSeen (store : List KnowledgeDocument) (source : String) :
    List KnowledgeDocument :=
  store.filter (fun d => d.sourceType = source && d.lastSeenAt.isNone)

/-- Effect of one collaborator call on the record store.  `seenTime` is the
wall-clock time a `markDocumentSeen` call stamps into `lastSeenAt`
(modelled from the spec: "the record's `lastSeenAt` must be refreshed");
index calls (`uploadFile` / `deleteFile`) do not touch the store. -/
def applyEvent (seenTime : String) (store : List KnowledgeDocument) :
    SyncEvent → List KnowledgeDocument
  | SyncEvent.saveDocument doc =>
    store.filter (fun d => !docKeyIs doc.sourceType doc.sourceId d) ++ [doc]
  | SyncEvent.updateDocument source sourceId u =>
    store.map (fun d => if docKeyIs source sourceId d then applyUpdate d u else d)
  | SyncEvent.markDocumentSeen source sourceId =>
    store.map (fun d =>
      if docKeyIs source sourceId d then { d with lastSeenAt := some seenTime } else d)
  | SyncEvent.deleteDocumentBySource source sourceId =>
    store.filter (fun d => !docKeyIs source sourceId d)
  | SyncEvent.deleteDocument docId =>
    store.filter (fun d => !(d.sourceType ++ "_" ++ d.sourceId = docId))
  | SyncEvent.uploadFile _ _ => store
  | SyncEvent.deleteFile _ => store

/-- Apply a list of events left to right. -/
def applyEvents (seenTime : String) (store : List KnowledgeDocument)
    (events : List SyncEvent) : List KnowledgeDocument :=
  events.foldl (applyEvent seenTime) store

/-! ### Delete-stale phase (both sync classes) -/

/-- The per-record body of the delete-stale loop: delete the index artifact
when one is recorded, then delete the persisted record. -/
def deleteStaleDocEvents (source : String) (doc : KnowledgeDocument) : List SyncEvent :=
  (if ¬ doc.vectorStoreFileId = "" then [SyncEvent.deleteFile doc.vectorStoreFileId] else [])
  ++ [SyncEvent.deleteDocumentBySource source doc.sourceId]

/-- `deleteStaleDocuments` of the sync classes: query the stale records
of the source and delete each (artifact first, then record), counting
deletions.  Legacy records without `lastSeenAt` are only counted for a log
line and never deleted. -/
def deleteStaleDocuments (store : List KnowledgeDocument) (source watermark : String) :
    List SyncEvent × Nat :=
  let staleDocs := getStaleDocuments store source watermark
  ((staleDocs.map (deleteStaleDocEvents source)).flatten, staleDocs.length)

/-! ### Initialization (resume-or-fresh) -/

/-- Per-source counters. -/
structure SyncStats where
  processed : Nat := 0
  added : Nat := 0
  updated : Nat := 0
  unchanged : Nat := 0
  deleted : Nat := 0
  errored : Nat := 0
deriving Repr, DecidableEq

/-- The zero counters both `initialize` methods start from. -/
def zeroStats : SyncStats := {}

/-- The persisted `SyncState` document as the streaming sync reads and
writes it (status, checkpoint and counters; the Slack variant adds the
channel index/cursor pair). -/
structure SavedSyncState where
  status : String
  cursor : Option String := none
  syncStartTime : Option String := none
  stats : Option SyncStats := none
  stopRequested : Bool := false
  lastSyncTimestamp : Option String := none
  totalDocuments : Nat := 0
  currentChannelIndex : Option Nat := none
  currentChannelCursor : Option String := none
deriving Repr, DecidableEq

/-- The value `NotionSync.initialize` returns. -/
structure NotionInitResult where
  cursor : Option String
  syncStartTime : String
  stats : SyncStats
  isResume : Bool
deriving Repr, DecidableEq

/-- `NotionSync.initialize`: resume iff the saved status is `running` or
`timeout` and both `cursor` and `syncStartTime` are (truthily) present;
otherwise start fresh at `now`. -/
def notionInitialize (saved : Option SavedSyncState) (now : String) : NotionInitResult :=
  match saved with
  | some s =>
    if (s.status = "running" || s.status = "timeout")
        && strTruthy s.cursor && strTruthy s.syncStartTime then
      { cursor := s.cursor
        syncStartTime := s.syncStartTime.getD ""
        stats := s.stats.getD zeroStats
        isResume := true }
    else
      { cursor := none, syncStartTime := now, stats := zeroStats, isResume := false }
  | none =>
    { cursor := none, syncStartTime := now, stats := zeroStats, isResume := false }

/-- `SlackSync.initialize`: resume (returning the saved state unchanged)
iff the saved status is `running` or `timeout` and `syncStartTime` is
present; otherwise build a fresh running state at `now`. The boolean
records which branch was taken. -/
def slackInitialize (saved : Option SavedSyncState) (now : String) :
    SavedSyncState × Bool :=
  match saved with
  | some s =>
    if (s.status = "running" || s.status = "timeout") && strTruthy s.syncStartTime then
      (s, true)
    else
      ({ status := "running"
         lastSyncTimestamp := s.lastSyncTimestamp
         totalDocuments := s.totalDocuments
         syncStartTime := some now
         stats := some zeroStats
         currentChannelIndex := some 0
         currentChannelCursor := none }, false)
  | none =>
    ({ status := "running"
       lastSyncTimestamp := none
       totalDocuments := 0
       syncStartTime := some now
       stats := some zeroStats
       currentChannelIndex := some 0
       currentChannelCursor := none }, false)

/-! ### Index-side delete (vectorStore.processor.ts and the
`VectorStoreService` half of firestore.service.ts)

The OpenAI side is modelled as two id sets: the files attached to the
vector store and the file objects themselves.  The only failure modelled is
absence (HTTP 404), which is the failure mode the claims are about;
`isRateLimitError 404 = false`, so inside `withRetry` a 404 is re-raised
immediately and the per-attempt body below is the observable behaviour. -/

structure IndexState where
  vsFiles : List String
  files : List String
deriving Repr, DecidableEq

/-- `openai.vectorStores.files.del`: remove the file from the vector store,
404 when it is not attached. -/
def vectorStoreFilesDel (st : IndexState) (fileId : String) :
    IndexState × Except Nat Unit :=
  if st.vsFiles.contains fileId then
    ({ st with vsFiles := st.vsFiles.erase fileId }, Except.ok ())
  else (st, Except.error 404)

/-- `openai.files.del`: delete the file object, 404 when it does not exist. -/
def openaiFilesDel (st : IndexState) (fileId : String) :
    IndexState × Except Nat Unit :=
  if st.files.contains fileId then
    ({ st with files := st.files.erase fileId }, Except.ok ())
  else (st, Except.error 404)

/-- `VectorStoreProcessor.deleteFile` (one attempt): the vector-store
removal is wrapped in a `try` that swallows any error, and a 404 from the
file deletion is swallowed as "already deleted"; other statuses are
re-raised. -/
def processorDeleteFile (st : IndexState) (fileId : String) :
    IndexState × Except Nat Unit :=
  let r1 := vectorStoreFilesDel st fileId
  let r2 := openaiFilesDel r1.1 fileId
  match r2.2 with
  | Except.ok _ => (r2.1, Except.ok ())
  | Except.error status =>
    if status = 404 then (r2.1, Except.ok ()) else (r2.1, Except.error status)

/-- `VectorStoreService.deleteFile` (one attempt): the vector-store removal
is wrapped in a `try` that swallows any error, but the file deletion is not
guarded — its error propagates to the caller. -/
def serviceDeleteFile (st : IndexState) (fileId : String) :
    IndexState × Except Nat Unit :=
  let r1 := vectorStoreFilesDel st fileId
  openaiFilesDel r1.1 fileId

/-- The `delete` branch of `VectorStoreProcessor.processOperation`: delete
the artifact, then remove the record (`firestore.deleteDocument(docId)`);
a failure is captured in the result instead of propagating. -/
def processOperationDelete (st : IndexState) (fileId docId : String) :
    IndexState × List SyncEvent × Bool :=
  match processorDeleteFile st fileId with
  | (st', Except.ok _) => (st', [SyncEvent.deleteDocument docId], true)
  | (st', Except.error _) => (st', [], false)

/-! ### Retry executor (`withRetry` in src/src/utils/index.ts)

The fallible task is embedded as `tries : Nat → Except ε α`, the outcome of
its `i`-th invocation; the executor's observable behaviour is the final
result, the number of attempts actually made and the list of back-off
sleeps performed. -/

/-- The defaulted options of `withRetry`. -/
structure RetryConfig where
  maxRetries : Nat := 3
  initialDelayMs : Nat := 1000
  maxDelayMs : Nat := 30000
deriving Repr, DecidableEq

/-- The back-off slept after failing attempt `attempt`:
`min(initialDelayMs * 2 ^ attempt, maxDelayMs)`. -/
def retryDelay (cfg : RetryConfig) (attempt : Nat) : Nat :=
  min (cfg.initialDelayMs * 2 ^ attempt) cfg.maxDelayMs

/-- Observable outcome of a `withRetry` run. -/
structure RetryOutcome (ε α : Type) where
  result : Except ε α
  attemptsMade : Nat
  delays : List Nat
deriving Repr

/-- The `for` loop of `withRetry` from attempt index `attempt` with
`fuel = maxRetries - attempt` iterations left: on failure, re-raise when
`attempt === maxRetries` (fuel exhausted) or the error is not transient,
else sleep the back-off and try again. -/
def withRetryGo (retryOn : ε → Bool) (cfg : RetryConfig) (tries : Nat → Except ε α) :
    Nat → Nat → RetryOutcome ε α
  | attempt, fuel =>
    match tries attempt with
    | Except.ok a => { result := Except.ok a, attemptsMade := attempt + 1, delays := [] }
    | Except.error e =>
      match fuel with
      | 0 => { result := Except.error e, attemptsMade := attempt + 1, delays := [] }
      | fuel + 1 =>
        if retryOn e then
          let rest := withRetryGo retryOn cfg tries (attempt + 1) fuel
          { result := rest.result
            attemptsMade := rest.attemptsMade
            delays := retryDelay cfg attempt :: rest.delays }
        else { result := Except.error e, attemptsMade := attempt + 1, delays := [] }

/-- `withRetry fn options`: run the loop from attempt 0. -/
def withRetry (retryOn : ε → Bool) (cfg : RetryConfig) (tries : Nat → Except ε α) :
    RetryOutcome ε α :=
  withRetryGo retryOn cfg tries 0 cfg.maxRetries

/-- `isRateLimitError` over the structured fields the code reads. -/
structure ApiErr where
  status : Option Nat := none
  code : Option String := none
  message : Option String := none
deriving Repr, DecidableEq

/-- The JavaScript `includes` test on character lists: some tail of `l`
starts with `pat`. -/
def containsSeq (pat l : List Char) : Bool :=
  l.tails.any (fun t => pat.isPrefixOf t)

/-- `isRateLimitError`: status 429, code `rate_limited`, or a message
containing `rate limit` (lower-cased; the `includes` test is stated on the
character lists so the kernel can evaluate it). -/
def isRateLimitError (e : ApiErr) : Bool :=
  e.status = some 429 || e.code = some "rate_limited"
    || containsSeq "rate limit".data ((e.message.getD "").data.map Char.toLower)

/-! ### Rate limiter (`RateLimiter` in src/src/utils/index.ts)

State is the list of recorded start timestamps (milliseconds, `Int`), in
push order.  One `execute` call at wall-clock `now` filters out timestamps
older than the window, sleeps when the retained count has reached the
limit, then records the start time and runs the task.  Sequential use —
each call issued after the previous task has started — is captured by the
`RLTrace` relation below. -/

/-- `this.requestTimes` after the `filter` in `waitIfNeeded`: timestamps
with `t > now - windowMs`. -/
def keptTimes (windowMs : Int) (times : List Int) (now : Int) : List Int :=
  times.filter (fun t => now - windowMs < t)

/-- The sleep `waitIfNeeded` performs at `now` (0 when none): when the
retained count has reached `maxRequests`, wait until the oldest retained
timestamp exits the window, plus a 10 ms buffer. -/
def waitTime (maxRequests : Nat) (windowMs : Int) (times : List Int) (now : Int) : Int :=
  let kept := keptTimes windowMs times now
  if maxRequests ≤ kept.length then
    let w := kept.headD 0 + windowMs - now + 10
    if 0 < w then w else 0
  else 0

/-- One `execute` call at wall-clock `now`: the new `requestTimes` list and
the recorded start time (`now` plus the sleep).  The start timestamp is
pushed before the task runs, so the slot is occupied whether or not the
task later throws. -/
def executeStep (maxRequests : Nat) (windowMs : Int) (times : List Int) (now : Int) :
    List Int × Int :=
  let start := now + waitTime maxRequests windowMs times now
  (keptTimes windowMs times now ++ [start], start)

/-- Sequential executions against one limiter instance:
`RLTrace N W lb times starts` says that a sequence of `execute` calls, each
issued at a wall-clock not before the previous task started (`lb` is that
lower bound), left the limiter with timestamp list `times` after the tasks
started at the times `starts`, in order. -/
inductive RLTrace (maxRequests : Nat) (windowMs : Int) : Int → List Int → List Int → Prop
  | init (t0 : Int) : RLTrace maxRequests windowMs t0 [] []
  | step {lb : Int} {times starts : List Int} (now : Int) :
      RLTrace maxRequests windowMs lb times starts → lb ≤ now →
      RLTrace maxRequests windowMs
        (executeStep maxRequests windowMs times now).2
        (executeStep maxRequests windowMs times now).1
        (starts ++ [(executeStep maxRequests windowMs times now).2])

/-! ### Notion stream loop (`NotionSync.sync` / `processChunk`)

The paginated source is modelled as the ordered list of pages the search
endpoint yields (after `filterPages`), with the opaque cursor represented
by a position in that list.  The model covers a run in which the kill
switch is never set and the 55-minute budget is not exceeded, which is the
regime of the cap-related claims; collaborator responses are supplied by
`NotionEnv`. -/

/-- `CHUNK_SIZE` in notion.sync.ts. -/
def CHUNK_SIZE : Nat := 20

/-- JavaScript truthiness of the optional numeric cap (`maxPages ? … : …`):
`undefined` and `0` are falsy. -/
def natOptTruthy : Option Nat → Bool
  | some n => ¬ n = 0
  | none => false

/-- Collaborator responses for a Notion run: the digest function, page
content by page id, the uploaded file id by page id, the wall clock and the
run watermark. -/
structure NotionEnv where
  hash : String → String
  content : String → String
  fileId : String → String
  now : String
  syncStartTime : String

/-- Counter bump for one processed page: the branch counter, then
`stats.processed++`. -/
def bumpStats (c : Classification) (s : SyncStats) : SyncStats :=
  let s1 :=
    match c with
    | Classification.isNew => { s with added := s.added + 1 }
    | Classification.incomplete => { s with added := s.added + 1 }
    | Classification.updated => { s with updated := s.updated + 1 }
    | Classification.unchanged => { s with unchanged := s.unchanged + 1 }
  { s1 with processed := s1.processed + 1 }

/-- `fetchNotionChunk` against the modelled source: the next `chunkSize`
pages from the cursor, whether more remain after them, and the following
cursor. -/
def fetchNotionChunk (pages : List NotionPageMeta) (cursor chunkSize : Nat) :
    List NotionPageMeta × Bool × Nat :=
  let results := (pages.drop cursor).take chunkSize
  (results, decide (cursor + results.length < pages.length), cursor + results.length)

/-- The `for` loop over one chunk's pages in `processChunk`: before each
page the cap is checked (`maxPages && processed >= maxPages` returns
`hasMore:false` early); otherwise the page is processed and the store and
counters advance.  Returns the final store, counters, events and whether
the cap cut the loop short. -/
def processPagesLoop (env : NotionEnv) (maxPages : Option Nat) :
    List NotionPageMeta → List KnowledgeDocument → SyncStats →
    List KnowledgeDocument × SyncStats × List SyncEvent × Bool
  | [], store, stats => (store, stats, [], false)
  | page :: rest, store, stats =>
    if natOptTruthy maxPages && maxPages.getD 0 ≤ stats.processed then
      (store, stats, [], true)
    else
      let pr := processPage env.hash page (getDocument store "notion" page.id)
        env.syncStartTime (env.content page.id) (env.fileId page.id) env.now
      let out := processPagesLoop env maxPages rest
        (applyEvents env.now store pr.1) (bumpStats pr.2 stats)
      (out.1, out.2.1, pr.1 ++ out.2.2.1, out.2.2.2)

/-- The result of `NotionSync.processChunk`. -/
structure ChunkOutcome where
  store : List KnowledgeDocument
  stats : SyncStats
  events : List SyncEvent
  hasMore : Bool
  nextCursor : Option Nat
deriving Repr

/-- `NotionSync.processChunk`: fetch `min(CHUNK_SIZE, maxPages - processed)`
pages when a cap is set (else `CHUNK_SIZE`), process them, and report
`hasMore:false, nextCursor:null` when the cap was reached (inside the loop
or right after it); otherwise propagate the source's `has_more`/cursor. -/
def notionProcessChunk (env : NotionEnv) (pages : List NotionPageMeta)
    (store : List KnowledgeDocument) (stats : SyncStats) (cursor : Nat)
    (maxPages : Option Nat) : ChunkOutcome :=
  let chunkSize := if natOptTruthy maxPages then
    min CHUNK_SIZE (maxPages.getD 0 - stats.processed) else CHUNK_SIZE
  let fetched := fetchNotionChunk pages cursor chunkSize
  let out := processPagesLoop env maxPages fetched.1 store stats
  if out.2.2.2 then
    { store := out.1, stats := out.2.1, events := out.2.2.1
      hasMore := false, nextCursor := none }
  else if natOptTruthy maxPages && maxPages.getD 0 ≤ (out.2.1).processed then
    { store := out.1, stats := out.2.1, events := out.2.2.1
      hasMore := false, nextCursor := none }
  else
    { store := out.1, stats := out.2.1, events := out.2.2.1
      hasMore := fetched.2.1, nextCursor := some fetched.2.2 }

/-- The `while (hasMore)` loop of `NotionSync.sync` (with `fuel` bounding
the number of chunk iterations; any `fuel ≥ pages.length + 1` is enough). -/
def notionStreamLoop (env : NotionEnv) (pages : List NotionPageMeta)
    (maxPages : Option Nat) :
    Nat → Nat → List KnowledgeDocument → SyncStats → List SyncEvent →
    List KnowledgeDocument × SyncStats × List SyncEvent
  | 0, _cursor, store, stats, acc => (store, stats, acc)
  | fuel + 1, cursor, store, stats, acc =>
    let cr := notionProcessChunk env pages store stats cursor maxPages
    if cr.hasMore then
      notionStreamLoop env pages maxPages fuel (cr.nextCursor.getD 0)
        cr.store cr.stats (acc ++ cr.events)
    else (cr.store, cr.stats, acc ++ cr.events)

/-- Everything `NotionSync.sync` did to the record store and the index in
one invocation. -/
structure NotionRunOutcome where
  store : List KnowledgeDocument
  stats : SyncStats
  events : List SyncEvent
deriving Repr

/-- `NotionSync.sync` for a run without stop requests: stream chunks until
`hasMore` is false, then — unconditionally, whatever ended the loop — run
the delete-stale phase against the watermark, then complete. -/
def notionSyncRun (env : NotionEnv) (pages : List NotionPageMeta)
    (store0 : List KnowledgeDocument) (maxPages : Option Nat) (fuel : Nat) :
    NotionRunOutcome :=
  let loopOut := notionStreamLoop env pages maxPages fuel 0 store0 zeroStats []
  let del := deleteStaleDocuments loopOut.1 "notion" env.syncStartTime
  { store := applyEvents env.now loopOut.1 del.1
    stats := { loopOut.2.1 with deleted := del.2 }
    events := loopOut.2.2 ++ del.1 }

/-- The guard in `SlackSync.sync` deciding whether the delete-stale phase
runs: `!maxMessages && (state.currentChannelIndex || 0) >= channels.length - 1`. -/
def slackAllChannelsProcessed (maxMessages : Option Nat)
    (currentChannelIndex : Option Nat) (numChannels : Nat) : Bool :=
  !natOptTruthy maxMessages && numChannels - 1 ≤ currentChannelIndex.getD 0

/-! ### Shared concrete fixtures for witnesses -/

/-- A sample page whose edit time is later than the stored record's. -/
def samplePage : NotionPageMeta :=
  { id := "p1", title := "A", url := "u", lastEditedTime := "2024-01-02" }

/-- A sample stored record for `samplePage` with a confirmed upload. -/
def sampleDoc : KnowledgeDocument :=
  { sourceType := "notion", sourceId := "p1", vectorStoreFileId := "f1"
    title := "A", url := "u", lastModified := "2024-01-01", contentHash := "h0"
    createdAt := "T0", updatedAt := "T0", lastSeenAt := some "T0"
    replyCount := none, editedTs := none }

/-- A sample Slack channel. -/
def sampleChannel : SlackChannel := { id := "C9", name := "general" }

/-- A sample Slack message long enough to pass the length filter. -/
def sampleMsg : SlackMsg :=
  { ts := some "1700000000.000100"
    text := some "this is a sample human message that is definitely longer than fifty characters" }

/-- Sample collaborator responses for a Slack message. -/
def sampleCollab : SlackCollab :=
  { userName := fun u => u, threadReplies := [], permalink := "P"
    fileId := "F", tsToIso := fun t => t, now := "T1" }

/-- A sample stored record for `sampleMsg` in `sampleChannel`. -/
def sampleMsgDoc : KnowledgeDocument :=
  { sourceType := "slack", sourceId := slackSourceId sampleChannel "1700000000.000100"
    vectorStoreFileId := "f2", title := "Slack message in #general", url := "P"
    lastModified := "1700000000.000100", contentHash := "h2"
    createdAt := "T0", updatedAt := "T0", lastSeenAt := some "T0"
    replyCount := some 0, editedTs := none }

end KnowledgeSync

namespace KnowledgeSync

/-! ### Claim C1 — classification priority order -/

/-- Claim C1: for every fetched source item, classification follows the
priority order of the spec — no stored record is New; a record whose
`vectorStoreFileId` is empty is Incomplete and dispatched to exactly the
same re-render/re-upload handler as New; otherwise a change marker
(page edit time strictly greater than the stored `lastModified`; message
reply count increased or a differing edit timestamp) makes it Updated; and
otherwise it is Unchanged and only `markDocumentSeen` is issued, which
refreshes `lastSeenAt` so the delete phase does not report the record
stale. -/
theorem c1_classification_priority (hash : String → String) (page : NotionPageMeta)
    (collab : SlackCollab) (msg : SlackMsg) (channel : SlackChannel) (wl : Bool)
    (syncStartTime content fileId now : String) (d : KnowledgeDocument)
    (rc : Nat) (ets : Option String) :
    (processPage hash page none syncStartTime content fileId now
      = (syncNewPage hash page syncStartTime content fileId now, Classification.isNew))
    ∧ (d.vectorStoreFileId = "" →
        processPage hash page (some d) syncStartTime content fileId now
          = (syncNewPage hash page syncStartTime content fileId now,
              Classification.incomplete))
    ∧ (¬ d.vectorStoreFileId = "" → d.lastModified < page.lastEditedTime →
        processPage hash page (some d) syncStartTime content fileId now
          = (syncUpdatedPage hash page d syncStartTime content fileId,
              Classification.updated))
    ∧ (¬ d.vectorStoreFileId = "" → ¬ d.lastModified < page.lastEditedTime →
        processPage hash page (some d) syncStartTime content fileId now
          = ([SyncEvent.markDocumentSeen "notion" page.id], Classification.unchanged))
    ∧ (hasMessageChanged d rc ets
        = (decide (d.replyCount.getD 0 < rc) || (ets.isSome && decide (ets ≠ d.editedTs))))
    ∧ (messageSkipped msg wl = false →
        (processMessage hash collab msg channel wl none syncStartTime
          = (syncNewMessage hash collab msg channel syncStartTime
              (slackSourceId channel (msg.ts.getD "")) (msg.replyCount.getD 0)
              (editedTsOf msg), true, some Classification.isNew))
        ∧ (d.vectorStoreFileId = "" →
            processMessage hash collab msg channel wl (some d) syncStartTime
              = (syncNewMessage hash collab msg channel syncStartTime
                  (slackSourceId channel (msg.ts.getD "")) (msg.replyCount.getD 0)
                  (editedTsOf msg), true, some Classification.incomplete))
        ∧ (¬ d.vectorStoreFileId = "" →
            hasMessageChanged d (msg.replyCount.getD 0) (editedTsOf msg) = true →
            processMessage hash collab msg channel wl (some d) syncStartTime
              = (syncUpdatedMessage hash collab msg channel d syncStartTime
                  (msg.replyCount.getD 0) (editedTsOf msg), true,
                  some Classification.updated))
        ∧ (¬ d.vectorStoreFileId = "" →
            hasMessageChanged d (msg.replyCount.getD 0) (editedTsOf msg) = false →
            processMessage hash collab msg channel wl (some d) syncStartTime
              = ([SyncEvent.markDocumentSeen "slack"
                  (slackSourceId channel (msg.ts.getD ""))], false,
                  some Classification.unchanged)))
    ∧ (∀ (dd : KnowledgeDocument) (seenTime watermark : String), watermark ≤ seenTime →
        getStaleDocuments
          (applyEvent seenTime [dd]
            (SyncEvent.markDocumentSeen dd.sourceType dd.sourceId))
          dd.sourceType watermark = []) := by
  refine ⟨rfl, ?_, ?_, ?_, ?_, ?_, ?_⟩
  · intro h
    simp [processPage, h]
  · intro h h2
    simp [processPage, h, (jsStrLt_iff _ _).mpr h2]
  · intro h h2
    simp [processPage, h, (jsStrLt_eq_false_iff _ _).mpr h2]
  · cases ets with
    | none => by_cases h : d.replyCount.getD 0 < rc <;> simp [hasMessageChanged, h]
    | some ts =>
      by_cases h : d.replyCount.getD 0 < rc
      · simp [hasMessageChanged, h]
      · by_cases h2 : some ts = d.editedTs
        · simp [hasMessageChanged, h, h2]
        · have h3 : ¬ d.editedTs = some ts := fun hh => h2 hh.symm
          simp [hasMessageChanged, h, h2, h3]
  · intro hskip
    refine ⟨?_, ?_, ?_, ?_⟩
    · simp [processMessage, hskip]
    · intro h
      simp [processMessage, hskip, h]
    · intro h h2
      simp [processMessage, hskip, h, h2]
    · intro h h2
      simp [processMessage, hskip, h, h2]
  · intro dd seenTime watermark hle
    simp [applyEvent, getStaleDocuments, docKeyIs,
      (jsStrLt_eq_false_iff _ _).mpr (not_lt.mpr hle)]

/-- Witness for C1 at concrete inputs: `sampleDoc` has a confirmed upload
and an edit time strictly after its stored `lastModified`, so the page is
classified Updated; and after `markDocumentSeen` at the watermark, the
record is not stale. -/
theorem c1_classification_priority_witness :
    processPage (fun s => s) samplePage (some sampleDoc) "T1" "c" "F" "T1"
      = (syncUpdatedPage (fun s => s) samplePage sampleDoc "T1" "c" "F",
          Classification.updated)
    ∧ getStaleDocuments
        (applyEvent "T1" [sampleDoc]
          (SyncEvent.markDocumentSeen sampleDoc.sourceType sampleDoc.sourceId))
        sampleDoc.sourceType "T1" = [] := by
  refine ⟨?_, ?_⟩
  · exact (c1_classification_priority (fun s => s) samplePage sampleCollab sampleMsg
      sampleChannel false "T1" "c" "F" "T1" sampleDoc 0 none).2.2.1
      (by decide) (by rw [← jsStrLt_iff]; decide)
  · exact (c1_classification_priority (fun s => s) samplePage sampleCollab sampleMsg
      sampleChannel false "T1" "c" "F" "T1" sampleDoc 0 none).2.2.2.2.2.2
      sampleDoc "T1" "T1" (le_refl "T1")

/-! ### Claim C2 -- stale detection correctness -/

/-- Membership in the stale query: in the store, of the right source, and
last seen strictly before the watermark. -/
theorem mem_getStaleDocuments_iff (store : List KnowledgeDocument)
    (source watermark : String) (d : KnowledgeDocument) :
    d ∈ getStaleDocuments store source watermark ↔
      d ∈ store ∧ d.sourceType = source ∧ ∃ t, d.lastSeenAt = some t ∧ t < watermark := by
  unfold getStaleDocuments
  rw [List.mem_filter]
  cases h : d.lastSeenAt <;> simp [h, jsStrLt_iff, and_assoc]

/-- Membership of a record-delete event in one record's delete block. -/
theorem mem_deleteStaleDocEvents_iff (source src sid : String) (d : KnowledgeDocument) :
    SyncEvent.deleteDocumentBySource src sid ∈ deleteStaleDocEvents source d ↔
      src = source ∧ sid = d.sourceId := by
  unfold deleteStaleDocEvents
  by_cases h : d.vectorStoreFileId = "" <;> simp [h]

/-- The record-delete events of the delete phase are exactly those of the
stale records. -/
theorem deleteEvent_mem_iff (store : List KnowledgeDocument)
    (source watermark src sid : String) :
    SyncEvent.deleteDocumentBySource src sid ∈ (deleteStaleDocuments store source watermark).1
      ↔ src = source ∧
        ∃ d ∈ getStaleDocuments store source watermark, d.sourceId = sid := by
  unfold deleteStaleDocuments
  rw [List.mem_flatten]
  constructor
  · rintro ⟨block, hblock, hmem⟩
    obtain ⟨d, hd, rfl⟩ := List.mem_map.mp hblock
    obtain ⟨rfl, rfl⟩ := (mem_deleteStaleDocEvents_iff source src sid d).mp hmem
    exact ⟨rfl, d, hd, rfl⟩
  · rintro ⟨h1, d, hd, h2⟩
    exact ⟨deleteStaleDocEvents source d, List.mem_map_of_mem _ hd,
      (mem_deleteStaleDocEvents_iff source src sid d).mpr ⟨h1, h2.symm⟩⟩

/-- Claim C2: the delete phase of a completed run deletes exactly the
records of the source whose `lastSeenAt` is strictly before the watermark
`runStartedAt` -- each with its index artifact deleted before the record --
and, keys being unique, never a record whose `lastSeenAt` is at or after
the watermark. -/
theorem c2_stale_detection (store : List KnowledgeDocument) (source watermark : String)
    (hkeys : ∀ d1 ∈ store, ∀ d2 ∈ store,
      d1.sourceType = d2.sourceType → d1.sourceId = d2.sourceId → d1 = d2) :
    (∀ d ∈ store, d.sourceType = source → ∀ t, d.lastSeenAt = some t → t < watermark →
        SyncEvent.deleteDocumentBySource source d.sourceId
          ∈ (deleteStaleDocuments store source watermark).1
        ∧ (¬ d.vectorStoreFileId = "" →
            List.Sublist
              [SyncEvent.deleteFile d.vectorStoreFileId,
               SyncEvent.deleteDocumentBySource source d.sourceId]
              (deleteStaleDocuments store source watermark).1))
    ∧ (∀ src sid,
        SyncEvent.deleteDocumentBySource src sid
            ∈ (deleteStaleDocuments store source watermark).1 →
        src = source ∧ ∃ d ∈ store, d.sourceId = sid ∧ d.sourceType = source ∧
          ∃ t, d.lastSeenAt = some t ∧ t < watermark)
    ∧ (∀ d ∈ store, d.sourceType = source → ∀ t, d.lastSeenAt = some t → watermark ≤ t →
        SyncEvent.deleteDocumentBySource source d.sourceId
          ∉ (deleteStaleDocuments store source watermark).1) := by
  refine ⟨?_, ?_, ?_⟩
  · intro d hd hsrc t ht hlt
    have hstale : d ∈ getStaleDocuments store source watermark :=
      (mem_getStaleDocuments_iff store source watermark d).mpr ⟨hd, hsrc, t, ht, hlt⟩
    refine ⟨(deleteEvent_mem_iff store source watermark source d.sourceId).mpr
      ⟨rfl, d, hstale, rfl⟩, ?_⟩
    intro hfid
    have hblock : deleteStaleDocEvents source d
        ∈ (getStaleDocuments store source watermark).map (deleteStaleDocEvents source) :=
      List.mem_map_of_mem _ hstale
    have hsub := (List.infix_of_mem_flatten hblock).sublist
    have hform : deleteStaleDocEvents source d
        = [SyncEvent.deleteFile d.vectorStoreFileId,
           SyncEvent.deleteDocumentBySource source d.sourceId] := by
      unfold deleteStaleDocEvents
      simp [hfid]
    rw [hform] at hsub
    exact hsub
  · intro src sid hmem
    obtain ⟨hsrceq, d, hstale, hid⟩ :=
      (deleteEvent_mem_iff store source watermark src sid).mp hmem
    obtain ⟨hd, hsrc, t, ht, hlt⟩ :=
      (mem_getStaleDocuments_iff store source watermark d).mp hstale
    exact ⟨hsrceq, d, hd, hid, hsrc, t, ht, hlt⟩
  · intro d hd hsrc t ht hge hmem
    obtain ⟨-, d2, hstale, hid⟩ :=
      (deleteEvent_mem_iff store source watermark source d.sourceId).mp hmem
    obtain ⟨hd2, hsrc2, t2, ht2, hlt2⟩ :=
      (mem_getStaleDocuments_iff store source watermark d2).mp hstale
    have heq : d2 = d := hkeys d2 hd2 d hd (hsrc2.trans hsrc.symm) hid
    subst heq
    rw [ht] at ht2
    cases ht2
    exact absurd hlt2 (not_lt.mpr hge)

/-- Witness for C2: a two-record store in which the record last seen at
`T0` is deleted and the record last seen at the watermark `T1` is not. -/
theorem c2_stale_detection_witness :
    (SyncEvent.deleteDocumentBySource "notion" "p1"
        ∈ (deleteStaleDocuments
            [sampleDoc, { sampleDoc with sourceId := "p2", lastSeenAt := some "T1" }]
            "notion" "T1").1)
    ∧ (SyncEvent.deleteDocumentBySource "notion" "p2"
        ∉ (deleteStaleDocuments
            [sampleDoc, { sampleDoc with sourceId := "p2", lastSeenAt := some "T1" }]
            "notion" "T1").1) := by
  have h := c2_stale_detection
    [sampleDoc, { sampleDoc with sourceId := "p2", lastSeenAt := some "T1" }]
    "notion" "T1" (by decide)
  refine ⟨?_, ?_⟩
  · exact (h.1 sampleDoc (by decide) (by decide) "T0" (by decide)
      (by rw [← jsStrLt_iff]; decide)).1
  · exact h.2.2 { sampleDoc with sourceId := "p2", lastSeenAt := some "T1" }
      (by simp) (by decide) "T1" (by decide) (le_refl "T1")

/-! ### Claim C3 -- record persisted before the index create call -/

/-- Claim C3: uploading a new or incomplete item issues exactly three
calls, in order: persist the record with an empty artifact id, create the
index artifact, and only then update the record with the returned id in a
second, separate persistence write -- for pages and for messages. -/
theorem c3_persist_before_create (hash : String → String) (page : NotionPageMeta)
    (collab : SlackCollab) (msg : SlackMsg) (channel : SlackChannel)
    (syncStartTime content fileId now sourceId : String)
    (rc : Nat) (ets : Option String) :
    ((syncNewPage hash page syncStartTime content fileId now).length = 3
      ∧ (∃ d, (syncNewPage hash page syncStartTime content fileId now).get? 0
            = some (SyncEvent.saveDocument d) ∧ d.vectorStoreFileId = "")
      ∧ (∃ c n, (syncNewPage hash page syncStartTime content fileId now).get? 1
            = some (SyncEvent.uploadFile c n))
      ∧ (syncNewPage hash page syncStartTime content fileId now).get? 2
          = some (SyncEvent.updateDocument "notion" page.id
              { vectorStoreFileId := some fileId }))
    ∧ ((syncNewMessage hash collab msg channel syncStartTime sourceId rc ets).length = 3
      ∧ (∃ d, (syncNewMessage hash collab msg channel syncStartTime sourceId rc ets).get? 0
            = some (SyncEvent.saveDocument d) ∧ d.vectorStoreFileId = "")
      ∧ (∃ c n, (syncNewMessage hash collab msg channel syncStartTime sourceId rc ets).get? 1
            = some (SyncEvent.uploadFile c n))
      ∧ (syncNewMessage hash collab msg channel syncStartTime sourceId rc ets).get? 2
          = some (SyncEvent.updateDocument "slack" sourceId
              { vectorStoreFileId := some collab.fileId })) := by
  refine ⟨⟨rfl, ⟨newPageDoc hash page syncStartTime content now, rfl, rfl⟩,
    ⟨formatNotionContent page.url page.title content, "notion_" ++ page.id ++ ".txt",
      rfl⟩, rfl⟩,
    rfl, ⟨newMessageDoc hash collab msg channel syncStartTime sourceId rc ets, rfl, rfl⟩,
    ⟨_, "slack_" ++ sourceId ++ ".txt", rfl⟩, rfl⟩

/-! ### Claim C8 -- metadata-only update when the digest is unchanged -/

/-- Claim C8: when an Updated item re-renders to the stored digest, the
only call issued is a metadata update (change marker and `lastSeenAt` for
pages; `lastSeenAt`, `replyCount` and `editedTs` for messages) -- no index
delete, no upload -- and applying that update leaves the stored
`vectorStoreFileId` and `contentHash` unchanged. -/
theorem c8_metadata_only_update (hash : String → String) (page : NotionPageMeta)
    (collab : SlackCollab) (msg : SlackMsg) (channel : SlackChannel)
    (ex exm : KnowledgeDocument) (syncStartTime content fileId : String)
    (rc : Nat) (ets : Option String)
    (hpage : hash content = ex.contentHash)
    (hmsg : hash (formatSlackContent exm.url channel.name (slackAuthorName collab msg)
        (collab.tsToIso (msg.ts.getD "")) (extractMessageText msg)
        (slackRepliesUsed collab msg rc)) = exm.contentHash) :
    syncUpdatedPage hash page ex syncStartTime content fileId
      = [SyncEvent.updateDocument "notion" page.id
          { lastModified := some page.lastEditedTime, lastSeenAt := some syncStartTime }]
    ∧ syncUpdatedMessage hash collab msg channel exm syncStartTime rc ets
      = [SyncEvent.updateDocument "slack" exm.sourceId
          { lastSeenAt := some syncStartTime, replyCount := some rc, editedTs := ets }]
    ∧ (∀ d : KnowledgeDocument,
        let pu : DocUpdate :=
          { lastModified := some page.lastEditedTime, lastSeenAt := some syncStartTime }
        let mu : DocUpdate :=
          { lastSeenAt := some syncStartTime, replyCount := some rc, editedTs := ets }
        (applyUpdate d pu).vectorStoreFileId = d.vectorStoreFileId
        ∧ (applyUpdate d pu).contentHash = d.contentHash
        ∧ (applyUpdate d mu).vectorStoreFileId = d.vectorStoreFileId
        ∧ (applyUpdate d mu).contentHash = d.contentHash) := by
  refine ⟨?_, ?_, ?_⟩
  · simp [syncUpdatedPage, hpage]
  · simp [syncUpdatedMessage, hmsg]
  · intro d
    exact ⟨rfl, rfl, rfl, rfl⟩

/-- Witness for C8: with the stored digest matching the re-rendered
content, both update paths degrade to a single metadata write. -/
theorem c8_metadata_only_update_witness :
    syncUpdatedPage (fun _ => "h0") samplePage sampleDoc "T1" "c" "F"
      = [SyncEvent.updateDocument "notion" "p1"
          { lastModified := some "2024-01-02", lastSeenAt := some "T1" }]
    ∧ syncUpdatedMessage (fun _ => "h2") sampleCollab sampleMsg sampleChannel
        sampleMsgDoc "T1" 0 none
      = [SyncEvent.updateDocument "slack" sampleMsgDoc.sourceId
          { lastSeenAt := some "T1", replyCount := some 0, editedTs := none }] := by
  refine ⟨?_, ?_⟩
  · exact ((c8_metadata_only_update (fun _ => "h0") samplePage sampleCollab sampleMsg
      sampleChannel sampleDoc { sampleMsgDoc with contentHash := "h0" } "T1" "c" "F"
      0 none rfl rfl).1)
  · exact ((c8_metadata_only_update (fun _ => "h2") samplePage sampleCollab sampleMsg
      sampleChannel { sampleDoc with contentHash := "h2" } sampleMsgDoc "T1" "c" "F"
      0 none rfl rfl).2.1)

/-! ### Claim C5 -- which saved states resume -/

/-- Counterexample to claim C5: a persisted `failed` state with both
checkpoint fields present does not resume -- both initializers start
fresh. -/
theorem c5_failed_state_starts_fresh :
    (notionInitialize
      (some { status := "failed", cursor := some "cur", syncStartTime := some "T0" })
      "T1").isResume = false
    ∧ (slackInitialize
        (some { status := "failed", cursor := some "cur", syncStartTime := some "T0" })
        "T1").2 = false := by
  constructor <;> rfl

/-- Claim C5 (amended): initialization resumes -- reusing the saved cursor,
`syncStartTime` and stats -- exactly when the persisted status is `running`
or `timeout` and the checkpoint fields are truthily present (`cursor` and
`syncStartTime` for the page sync; `syncStartTime` for the message sync);
any other status, `failed` included, starts fresh. -/
theorem c5_resume_conditions (s : SavedSyncState) (now : String) :
    ((notionInitialize (some s) now).isResume
      = ((s.status = "running" || s.status = "timeout")
          && strTruthy s.cursor && strTruthy s.syncStartTime))
    ∧ ((slackInitialize (some s) now).2
      = ((s.status = "running" || s.status = "timeout") && strTruthy s.syncStartTime))
    ∧ ((notionInitialize (some s) now).isResume = true →
        (notionInitialize (some s) now).cursor = s.cursor
        ∧ (notionInitialize (some s) now).syncStartTime = s.syncStartTime.getD ""
        ∧ (notionInitialize (some s) now).stats = s.stats.getD zeroStats)
    ∧ ((slackInitialize (some s) now).2 = true → (slackInitialize (some s) now).1 = s)
    ∧ ((notionInitialize (some s) now).isResume = false →
        (notionInitialize (some s) now)
          = { cursor := none, syncStartTime := now, stats := zeroStats,
              isResume := false }) := by
  by_cases hn : ((s.status = "running" || s.status = "timeout")
      && strTruthy s.cursor && strTruthy s.syncStartTime) = true
  · by_cases hs : ((s.status = "running" || s.status = "timeout")
        && strTruthy s.syncStartTime) = true
    · refine ⟨?_, ?_, ?_, ?_, ?_⟩ <;> simp [notionInitialize, slackInitialize, hn, hs]
    · refine ⟨?_, ?_, ?_, ?_, ?_⟩ <;> simp [notionInitialize, slackInitialize, hn, hs]
  · by_cases hs : ((s.status = "running" || s.status = "timeout")
        && strTruthy s.syncStartTime) = true
    · refine ⟨?_, ?_, ?_, ?_, ?_⟩ <;> simp [notionInitialize, slackInitialize, hn, hs]
    · refine ⟨?_, ?_, ?_, ?_, ?_⟩ <;> simp [notionInitialize, slackInitialize, hn, hs]

/-- Witness for C5: a `timeout` state with checkpoint fields resumes and
reuses its cursor, watermark and counters. -/
theorem c5_resume_conditions_witness :
    (notionInitialize
      (some { status := "timeout", cursor := some "cur", syncStartTime := some "T0",
              stats := some { processed := 5 } }) "T1").cursor = some "cur"
    ∧ (notionInitialize
      (some { status := "timeout", cursor := some "cur", syncStartTime := some "T0",
              stats := some { processed := 5 } }) "T1").syncStartTime = "T0"
    ∧ (notionInitialize
      (some { status := "timeout", cursor := some "cur", syncStartTime := some "T0",
              stats := some { processed := 5 } }) "T1").stats = { processed := 5 } := by
  have h := (c5_resume_conditions
    { status := "timeout", cursor := some "cur", syncStartTime := some "T0",
      stats := some { processed := 5 } } "T1").2.2.1 (by rfl)
  exact ⟨h.1, h.2.1, h.2.2⟩

/-! ### Claim C9 -- delete of an absent artifact -/

/-- Counterexample to claim C9 as stated for `VectorStoreService.deleteFile`
(the second deleter cited): with the artifact absent from both the vector
store and the file store, the call raises 404 instead of succeeding
(`isRateLimitError` does not cover 404, so `withRetry` re-raises it
immediately). -/
theorem c9_service_delete_raises_on_absent :
    (serviceDeleteFile { vsFiles := [], files := [] } "f1").2 = Except.error 404 := by
  rfl

/-- Claim C9 (amended): for every Delete operation through the pipeline
(`VectorStoreProcessor.deleteFile`), deleting an already-absent artifact is
success -- the vector-store removal failure is swallowed and a 404 from the
file deletion is swallowed -- and the persisted record is still deleted
afterwards; `VectorStoreService.deleteFile`, by contrast, succeeds exactly
when the file object exists. -/
theorem c9_processor_delete_tolerates_absence (st : IndexState) (fileId docId : String) :
    (processorDeleteFile st fileId).2 = Except.ok ()
    ∧ (processOperationDelete st fileId docId).2.1 = [SyncEvent.deleteDocument docId]
    ∧ (processOperationDelete st fileId docId).2.2 = true
    ∧ ((serviceDeleteFile st fileId).2 = Except.ok ()
        ↔ st.files.contains fileId = true) := by
  by_cases h1 : fileId ∈ st.vsFiles <;>
    by_cases h2 : fileId ∈ st.files <;>
      refine ⟨?_, ?_, ?_, ?_⟩ <;>
        simp [processorDeleteFile, serviceDeleteFile, processOperationDelete,
          vectorStoreFilesDel, openaiFilesDel, h1, h2]

/-! ### Claim C10 -- Slack message and channel skip rules -/

/-- The channels the `SlackSync.sync` loop actually processes: blacklisted
channels are `continue`d over before any message is fetched. -/
def channelsToProcess (channels : List SlackChannel) : List SlackChannel :=
  channels.filter (fun c => !isChannelBlacklisted c.name)

/-- A skipped message produces no events at all. -/
theorem processMessage_of_skipped (hash : String → String) (collab : SlackCollab)
    (msg : SlackMsg) (channel : SlackChannel) (wl : Bool)
    (existing : Option KnowledgeDocument) (syncStartTime : String)
    (h : messageSkipped msg wl = true) :
    processMessage hash collab msg channel wl existing syncStartTime
      = ([], false, none) := by
  simp [processMessage, h]

/-- Claim C10: a fetched Slack message is silently dropped -- no record
read or created, nothing uploaded, `false` returned -- when its timestamp
is missing, its extracted text is shorter than 50 characters, it carries a
`bot_id` outside a bot-whitelisted channel, or it carries a subtype other
than `bot_message` in a whitelisted channel; and blacklisted channels
(by name or by name suffix) are skipped before any message is fetched. -/
theorem c10_skip_rules (hash : String → String) (collab : SlackCollab)
    (msg : SlackMsg) (channel : SlackChannel) (wl : Bool)
    (existing : Option KnowledgeDocument) (syncStartTime : String)
    (channels : List SlackChannel) :
    (¬ strTruthy msg.ts = true →
      processMessage hash collab msg channel wl existing syncStartTime
        = ([], false, none))
    ∧ ((extractMessageText msg).length < MIN_MESSAGE_LENGTH →
      processMessage hash collab msg channel wl existing syncStartTime
        = ([], false, none))
    ∧ (strTruthy msg.botId = true → wl = false →
      processMessage hash collab msg channel wl existing syncStartTime
        = ([], false, none))
    ∧ (strTruthy msg.subtype = true →
      ¬ (msg.subtype = some "bot_message" ∧ wl = true) →
      processMessage hash collab msg channel wl existing syncStartTime
        = ([], false, none))
    ∧ (∀ c ∈ channels, isChannelBlacklisted c.name = true →
        c ∉ channelsToProcess channels)
    ∧ (∀ name, name ∈ CHANNEL_BLACKLIST → isChannelBlacklisted name = true)
    ∧ (∀ name p, p ∈ CHANNEL_BLACKLIST_PATTERNS → p.data.isSuffixOf name.data = true →
        isChannelBlacklisted name = true) := by
  refine ⟨?_, ?_, ?_, ?_, ?_, ?_, ?_⟩
  · intro h
    refine processMessage_of_skipped hash collab msg channel wl existing syncStartTime ?_
    simp only [messageSkipped]
    simp [h]
  · intro h
    refine processMessage_of_skipped hash collab msg channel wl existing syncStartTime ?_
    simp only [messageSkipped]
    by_cases hts : strTruthy msg.ts = true
    · simp [hts, h]
    · simp [hts]
  · intro hbot hwl
    refine processMessage_of_skipped hash collab msg channel wl existing syncStartTime ?_
    subst hwl
    simp only [messageSkipped]
    by_cases hts : strTruthy msg.ts = true
    · by_cases hlen : (extractMessageText msg = "" ||
        decide ((extractMessageText msg).length < MIN_MESSAGE_LENGTH)) = true
      · simp [hts, hlen]
      · simp [hts, hlen, hbot]
    · simp [hts]
  · intro hsub hnot
    refine processMessage_of_skipped hash collab msg channel wl existing syncStartTime ?_
    simp only [messageSkipped]
    by_cases hts : strTruthy msg.ts = true
    · by_cases hlen : (extractMessageText msg = "" ||
        decide ((extractMessageText msg).length < MIN_MESSAGE_LENGTH)) = true
      · simp [hts, hlen]
      · by_cases hbot : (strTruthy msg.botId && !wl) = true
        · simp [hts, hlen, hbot]
        · have : ¬ (msg.subtype = some "bot_message" && wl) = true := by
            simp only [Bool.and_eq_true, decide_eq_true_eq]
            intro hb
            exact hnot ⟨hb.1, hb.2⟩
          simp [hts, hlen, hbot, hsub, this]
    · simp [hts]
  · intro c hc hbl hmem
    have := (List.mem_filter.mp hmem).2
    simp [hbl] at this
  · intro name hmem
    simp [isChannelBlacklisted]
    exact Or.inl hmem
  · intro name p hp hsuf
    unfold isChannelBlacklisted
    refine Bool.or_eq_true_iff.mpr (Or.inr ?_)
    exact List.any_eq_true.mpr ⟨p, hp, hsuf⟩

/-- Witness for C10: a bot-authored message in a non-whitelisted channel is
dropped with no events, and `github-updates` and a `-purchases`-suffixed
channel are blacklisted. -/
theorem c10_skip_rules_witness :
    processMessage (fun s => s) sampleCollab { sampleMsg with botId := some "B1" }
      sampleChannel false none "T1" = ([], false, none)
    ∧ isChannelBlacklisted "github-updates" = true
    ∧ isChannelBlacklisted "team-purchases" = true := by
  have h := c10_skip_rules (fun s => s) sampleCollab
    { sampleMsg with botId := some "B1" } sampleChannel false none "T1" []
  refine ⟨h.2.2.1 (by decide) rfl, h.2.2.2.2.2.1 "github-updates" (by decide),
    h.2.2.2.2.2.2 "team-purchases" "-purchases" (by decide) (by decide)⟩

/-! ### Claim C7 -- the retry executor -/

/-- Unfolding: a successful attempt ends the loop at once. -/
theorem withRetryGo_ok {retryOn : ε → Bool} {cfg : RetryConfig}
    {tries : Nat → Except ε α} {attempt : Nat} {a : α}
    (hok : tries attempt = Except.ok a) (fuel : Nat) :
    withRetryGo retryOn cfg tries attempt fuel
      = { result := Except.ok a, attemptsMade := attempt + 1, delays := [] } := by
  conv_lhs => unfold withRetryGo
  rw [hok]

/-- Unfolding: a failure at the last allowed attempt is re-raised. -/
theorem withRetryGo_err_zero {retryOn : ε → Bool} {cfg : RetryConfig}
    {tries : Nat → Except ε α} {attempt : Nat} {e : ε}
    (herr : tries attempt = Except.error e) :
    withRetryGo retryOn cfg tries attempt 0
      = { result := Except.error e, attemptsMade := attempt + 1, delays := [] } := by
  conv_lhs => unfold withRetryGo
  rw [herr]

/-- Unfolding: a failure with attempts remaining retries iff transient. -/
theorem withRetryGo_err_succ {retryOn : ε → Bool} {cfg : RetryConfig}
    {tries : Nat → Except ε α} {attempt : Nat} {e : ε}
    (herr : tries attempt = Except.error e) (fuel : Nat) :
    withRetryGo retryOn cfg tries attempt (fuel + 1)
      = if retryOn e then
          { result := (withRetryGo retryOn cfg tries (attempt + 1) fuel).result
            attemptsMade := (withRetryGo retryOn cfg tries (attempt + 1) fuel).attemptsMade
            delays := retryDelay cfg attempt
              :: (withRetryGo retryOn cfg tries (attempt + 1) fuel).delays }
        else { result := Except.error e, attemptsMade := attempt + 1, delays := [] } := by
  conv_lhs => unfold withRetryGo
  rw [herr]

/-- The loop makes at least one attempt from any starting index. -/
theorem withRetryGo_attempts_lower (retryOn : ε → Bool) (cfg : RetryConfig)
    (tries : Nat → Except ε α) (attempt fuel : Nat) :
    attempt + 1 ≤ (withRetryGo retryOn cfg tries attempt fuel).attemptsMade := by
  induction fuel generalizing attempt with
  | zero =>
    cases h : tries attempt
    · simp [withRetryGo_err_zero h]
    · simp [withRetryGo_ok h]
  | succ fuel ih =>
    cases h : tries attempt with
    | ok a => simp [withRetryGo_ok h]
    | error e =>
      by_cases hr : retryOn e = true
      · have := ih (attempt + 1)
        simp only [withRetryGo_err_succ h, hr, if_true]
        omega
      · simp [withRetryGo_err_succ h, hr]

/-- The loop makes at most `fuel + 1` attempts from any starting index. -/
theorem withRetryGo_attempts_upper (retryOn : ε → Bool) (cfg : RetryConfig)
    (tries : Nat → Except ε α) (attempt fuel : Nat) :
    (withRetryGo retryOn cfg tries attempt fuel).attemptsMade ≤ attempt + fuel + 1 := by
  induction fuel generalizing attempt with
  | zero =>
    cases h : tries attempt
    · simp [withRetryGo_err_zero h]
    · simp [withRetryGo_ok h]
  | succ fuel ih =>
    cases h : tries attempt with
    | ok a => simp [withRetryGo_ok h]
    | error e =>
      by_cases hr : retryOn e = true
      · have := ih (attempt + 1)
        simp only [withRetryGo_err_succ h, hr, if_true]
        omega
      · simp [withRetryGo_err_succ h, hr]

/-- The final result is the outcome of the last attempt made. -/
theorem withRetryGo_result_eq (retryOn : ε → Bool) (cfg : RetryConfig)
    (tries : Nat → Except ε α) (attempt fuel : Nat) :
    (withRetryGo retryOn cfg tries attempt fuel).result
      = tries ((withRetryGo retryOn cfg tries attempt fuel).attemptsMade - 1) := by
  induction fuel generalizing attempt with
  | zero =>
    cases h : tries attempt
    · simp [withRetryGo_err_zero h, h]
    · simp [withRetryGo_ok h, h]
  | succ fuel ih =>
    cases h : tries attempt with
    | ok a => simp [withRetryGo_ok h, h]
    | error e =>
      by_cases hr : retryOn e = true
      · simpa [withRetryGo_err_succ h, hr] using ih (attempt + 1)
      · simp [withRetryGo_err_succ h, hr, h]

/-- Every attempt strictly before the last failed with a transient error. -/
theorem withRetryGo_prior_transient (retryOn : ε → Bool) (cfg : RetryConfig)
    (tries : Nat → Except ε α) (attempt fuel : Nat) :
    ∀ i, attempt ≤ i → i + 1 < (withRetryGo retryOn cfg tries attempt fuel).attemptsMade →
      ∃ e, tries i = Except.error e ∧ retryOn e = true := by
  induction fuel generalizing attempt with
  | zero =>
    intro i hi hlt
    cases h : tries attempt
    · simp [withRetryGo_err_zero h] at hlt
      omega
    · simp [withRetryGo_ok h] at hlt
      omega
  | succ fuel ih =>
    intro i hi hlt
    cases h : tries attempt with
    | ok a =>
      simp [withRetryGo_ok h] at hlt
      omega
    | error e =>
      by_cases hr : retryOn e = true
      · simp only [withRetryGo_err_succ h, hr, if_true] at hlt
        rcases Nat.eq_or_lt_of_le hi with rfl | hgt
        · exact ⟨e, h, hr⟩
        · exact ih (attempt + 1) i hgt hlt
      · simp [withRetryGo_err_succ h, hr] at hlt
        omega

/-- The sleeps performed are exactly the back-offs of the failing attempts
before the last one. -/
theorem withRetryGo_delays (retryOn : ε → Bool) (cfg : RetryConfig)
    (tries : Nat → Except ε α) (attempt fuel : Nat) :
    (withRetryGo retryOn cfg tries attempt fuel).delays
      = (List.range' attempt
          ((withRetryGo retryOn cfg tries attempt fuel).attemptsMade - 1 - attempt)).map
          (retryDelay cfg) := by
  induction fuel generalizing attempt with
  | zero =>
    cases h : tries attempt
    · simp [withRetryGo_err_zero h]
    · simp [withRetryGo_ok h]
  | succ fuel ih =>
    cases h : tries attempt with
    | ok a => simp [withRetryGo_ok h]
    | error e =>
      by_cases hr : retryOn e = true
      · have hlow := withRetryGo_attempts_lower retryOn cfg tries (attempt + 1) fuel
        simp only [withRetryGo_err_succ h, hr, if_true]
        have hn : (withRetryGo retryOn cfg tries (attempt + 1) fuel).attemptsMade - 1 - attempt
            = ((withRetryGo retryOn cfg tries (attempt + 1) fuel).attemptsMade - 1
                - (attempt + 1)) + 1 := by omega
        rw [hn, List.range'_succ, List.map_cons, ih (attempt + 1)]
      · simp [withRetryGo_err_succ h, hr]

/-- A failure is re-raised only when it is non-transient or the budget is
exhausted. -/
theorem withRetryGo_error_cond (retryOn : ε → Bool) (cfg : RetryConfig)
    (tries : Nat → Except ε α) (attempt fuel : Nat) :
    ∀ e, (withRetryGo retryOn cfg tries attempt fuel).result = Except.error e →
      retryOn e = false
      ∨ (withRetryGo retryOn cfg tries attempt fuel).attemptsMade = attempt + fuel + 1 := by
  induction fuel generalizing attempt with
  | zero =>
    intro e he
    cases h : tries attempt
    · simp [withRetryGo_err_zero h]
    · simp [withRetryGo_ok h] at he
  | succ fuel ih =>
    intro e he
    cases h : tries attempt with
    | ok a =>
      simp [withRetryGo_ok h] at he
    | error e2 =>
      by_cases hr : retryOn e2 = true
      · simp only [withRetryGo_err_succ h, hr, if_true] at he ⊢
        rcases ih (attempt + 1) e he with hout | hout
        · exact Or.inl hout
        · right
          omega
      · simp only [Bool.not_eq_true] at hr
        simp [withRetryGo_err_succ h, hr] at he ⊢
        rcases he with ⟨rfl, -⟩
        exact hr

/-- Claim C7: `withRetry` makes at most `maxRetries + 1` attempts; after
failing attempt `i` it sleeps `min(initialDelayMs * 2 ^ i, maxDelayMs)` and
retries only when the failure is transient; the result is the outcome of
the last attempt, which -- when it is a failure -- is re-raised either
because it is non-transient (immediately) or because the retries are
exhausted. -/
theorem c7_withRetry_behaviour (retryOn : ε → Bool) (cfg : RetryConfig)
    (tries : Nat → Except ε α) :
    (withRetry retryOn cfg tries).attemptsMade ≤ cfg.maxRetries + 1
    ∧ 1 ≤ (withRetry retryOn cfg tries).attemptsMade
    ∧ (withRetry retryOn cfg tries).delays
        = (List.range ((withRetry retryOn cfg tries).attemptsMade - 1)).map
            (fun i => min (cfg.initialDelayMs * 2 ^ i) cfg.maxDelayMs)
    ∧ (∀ i, i + 1 < (withRetry retryOn cfg tries).attemptsMade →
        ∃ e, tries i = Except.error e ∧ retryOn e = true)
    ∧ (withRetry retryOn cfg tries).result
        = tries ((withRetry retryOn cfg tries).attemptsMade - 1)
    ∧ (∀ e, (withRetry retryOn cfg tries).result = Except.error e →
        retryOn e = false
        ∨ (withRetry retryOn cfg tries).attemptsMade = cfg.maxRetries + 1) := by
  refine ⟨?_, ?_, ?_, ?_, ?_, ?_⟩
  · simpa using withRetryGo_attempts_upper retryOn cfg tries 0 cfg.maxRetries
  · simpa using withRetryGo_attempts_lower retryOn cfg tries 0 cfg.maxRetries
  · have h := withRetryGo_delays retryOn cfg tries 0 cfg.maxRetries
    unfold withRetry
    rw [h, List.range_eq_range']
    simp [retryDelay]
  · intro i hlt
    exact withRetryGo_prior_transient retryOn cfg tries 0 cfg.maxRetries i
      (Nat.zero_le i) hlt
  · exact withRetryGo_result_eq retryOn cfg tries 0 cfg.maxRetries
  · intro e he
    simpa using withRetryGo_error_cond retryOn cfg tries 0 cfg.maxRetries e he

/-- Witness for C7 at a concrete task: two 429 failures then success under
the default options -- at most four attempts, sleeps following the back-off
formula, and the first attempt a transient failure. -/
theorem c7_withRetry_behaviour_witness :
    (withRetry isRateLimitError {}
      (fun i => if i < 2 then Except.error { status := some 429 } else Except.ok 42)).attemptsMade
      ≤ 4
    ∧ (withRetry isRateLimitError {}
        (fun i => if i < 2 then Except.error { status := some 429 } else Except.ok 42)).delays
      = (List.range
          ((withRetry isRateLimitError {}
            (fun i => if i < 2 then Except.error { status := some 429 }
              else Except.ok 42)).attemptsMade - 1)).map
          (fun i => min (1000 * 2 ^ i) 30000)
    ∧ ∃ e, (fun i => if i < 2 then Except.error { status := some 429 } else Except.ok (42 : Nat)) 0
          = Except.error e ∧ isRateLimitError e = true := by
  have h := c7_withRetry_behaviour isRateLimitError {}
    (fun i => if i < 2 then Except.error { status := some 429 } else Except.ok (42 : Nat))
  exact ⟨h.1, h.2.2.1, h.2.2.2.1 0 (by decide)⟩

/-! ### Claim C4 -- item cap versus the delete-stale phase -/

/-- Failing input for C4: a source of two pages. -/
def c4Pages : List NotionPageMeta :=
  [ { id := "p1", title := "A", url := "u1", lastEditedTime := "e1" },
    { id := "p2", title := "B", url := "u2", lastEditedTime := "e2" } ]

/-- Failing input for C4: both pages were synced by an earlier completed
run and were last seen at `T0`, before this run's watermark `T1`. -/
def c4Store : List KnowledgeDocument :=
  [ { sourceType := "notion", sourceId := "p1", vectorStoreFileId := "f1"
      title := "A", url := "u1", lastModified := "e1", contentHash := "c"
      createdAt := "T0", updatedAt := "T0", lastSeenAt := some "T0"
      replyCount := none, editedTs := none },
    { sourceType := "notion", sourceId := "p2", vectorStoreFileId := "f2"
      title := "B", url := "u2", lastModified := "e2", contentHash := "c"
      createdAt := "T0", updatedAt := "T0", lastSeenAt := some "T0"
      replyCount := none, editedTs := none } ]

/-- Collaborator responses for the C4 run. -/
def c4Env : NotionEnv :=
  { hash := fun s => s, content := fun _ => "c", fileId := fun _ => "F"
    now := "T1", syncStartTime := "T1" }

/-- Claim C4, evaluated at the failing input: a Notion run capped at
`maxPages = 1` over a two-page source processes only the first page -- the
source is not exhausted -- yet the run still enters the delete-stale
phase: the record of the second page, which still exists at the source and
was simply never fetched, is deleted.  The Slack sync, by contrast, guards
its delete phase with `!maxMessages`, which is false for every positive
cap. -/
theorem c4_cap_still_enters_delete_phase :
    (notionSyncRun c4Env c4Pages c4Store (some 1) 3).stats.processed = 1
    ∧ (notionSyncRun c4Env c4Pages c4Store (some 1) 3).stats.deleted = 1
    ∧ getDocument (notionSyncRun c4Env c4Pages c4Store (some 1) 3).store "notion" "p2"
        = none
    ∧ SyncEvent.deleteDocumentBySource "notion" "p2"
        ∈ (notionSyncRun c4Env c4Pages c4Store (some 1) 3).events
    ∧ (∀ (m n : Nat) (ci : Option Nat),
        slackAllChannelsProcessed (some (m + 1)) ci n = false) := by
  refine ⟨by decide, by decide, by decide, by decide, ?_⟩
  intro m n ci
  simp [slackAllChannelsProcessed, natOptTruthy]

/-! ### Claim C6 -- rate limiter sliding-window bound -/

/-- The recorded start time is the call time plus the sleep. -/
theorem executeStep_snd (N : Nat) (W : Int) (times : List Int) (now : Int) :
    (executeStep N W times now).2 = now + waitTime N W times now := rfl

/-- The new `requestTimes` list: the retained timestamps plus the new
start, pushed before the task runs. -/
theorem executeStep_fst (N : Nat) (W : Int) (times : List Int) (now : Int) :
    (executeStep N W times now).1
      = keptTimes W times now ++ [now + waitTime N W times now] := rfl

/-- The sleep is never negative. -/
theorem waitTime_nonneg (N : Nat) (W : Int) (times : List Int) (now : Int) :
    0 ≤ waitTime N W times now := by
  unfold waitTime
  by_cases h : N ≤ (keptTimes W times now).length
  · simp only [h, if_true]
    by_cases hw : 0 < (keptTimes W times now).headD 0 + W - now + 10 <;> simp [hw] <;> omega
  · simp [h]

/-- Below the limit there is no sleep. -/
theorem waitTime_eq_zero_of_lt {N : Nat} {W : Int} {times : List Int} {now : Int}
    (h : (keptTimes W times now).length < N) : waitTime N W times now = 0 := by
  unfold waitTime
  simp [Nat.not_le.mpr h]

/-- At the limit, the task starts only after the oldest retained
timestamp has exited the window, plus the 10 ms buffer. -/
theorem start_ge_of_full {N : Nat} {W : Int} {times : List Int} {now : Int}
    (h : N ≤ (keptTimes W times now).length) :
    (keptTimes W times now).headD 0 + W + 10 ≤ now + waitTime N W times now := by
  unfold waitTime
  simp only [h, if_true]
  by_cases hw : 0 < (keptTimes W times now).headD 0 + W - now + 10 <;> simp [hw] <;> omega

/-- Preservation of the limiter invariant across one `execute` call at
wall-clock `now ≥ lb`: the starts still inside the new window are recorded
in the state, the in-window count stays at most `N`, and every trailing
window of `W` ms contains at most `N` starts. -/
theorem rl_step_preserve {N : Nat} {W lb now : Int} {times starts : List Int}
    (hN : 0 < N) (hW : 0 < W) (hle : lb ≤ now)
    (ihA : List.Sublist (starts.filter (fun x => decide (lb - W < x))) times)
    (ihB : (times.filter (fun x => decide (lb - W < x))).length ≤ N)
    (ihC : ∀ t : Int,
      (starts.filter (fun x => decide (t - W < x) && decide (x ≤ t))).length ≤ N)
    {s : Int} (hs_def : s = now + waitTime N W times now) :
    List.Sublist ((starts ++ [s]).filter (fun x => decide (s - W < x)))
        (keptTimes W times now ++ [s])
    ∧ ((keptTimes W times now ++ [s]).filter (fun x => decide (s - W < x))).length ≤ N
    ∧ (∀ t : Int,
        ((starts ++ [s]).filter (fun x => decide (t - W < x) && decide (x ≤ t))).length
          ≤ N) := by
  have hnow_s : now ≤ s := by
    have := waitTime_nonneg N W times now
    omega
  have hlb_s : lb ≤ s := le_trans hle hnow_s
  have h_sub2 : List.Sublist (starts.filter (fun x => decide (s - W < x))) times := by
    refine List.Sublist.trans ?_ ihA
    apply List.monotone_filter_right
    intro x hx
    simp at hx ⊢
    omega
  have h_A_mem : ∀ x ∈ starts.filter (fun x => decide (s - W < x)),
      (fun x => decide (now - W < x)) x = true := by
    intro x hx
    have := (List.mem_filter.mp hx).2
    simp at this ⊢
    omega
  have h_sub3 : List.Sublist (starts.filter (fun x => decide (s - W < x)))
      (keptTimes W times now) := by
    have h1 := h_sub2.filter (fun x => decide (now - W < x))
    rw [List.filter_eq_self.mpr h_A_mem] at h1
    exact h1
  have hK_le : List.Sublist (keptTimes W times now)
      (times.filter (fun x => decide (lb - W < x))) := by
    unfold keptTimes
    apply List.monotone_filter_right
    intro x hx
    simp at hx ⊢
    omega
  have hK_N : (keptTimes W times now).length ≤ N := le_trans hK_le.length_le ihB
  have h_M : (times.filter (fun x => decide (s - W < x))).length + 1 ≤ N := by
    rcases Nat.lt_or_ge (keptTimes W times now).length N with hcase | hcase
    · have hz : waitTime N W times now = 0 := waitTime_eq_zero_of_lt hcase
      have hsnow : s = now := by omega
      have hKeq : times.filter (fun x => decide (s - W < x)) = keptTimes W times now := by
        rw [hsnow]
        rfl
      rw [hKeq]
      exact Nat.succ_le_of_lt hcase
    · have hge := start_ge_of_full hcase
      rw [← hs_def] at hge
      have hKne : keptTimes W times now ≠ [] := by
        intro h
        rw [h] at hcase
        simp at hcase
        omega
      obtain ⟨oldest, Ktail, hK⟩ := List.exists_cons_of_ne_nil hKne
      have h_oldest : (keptTimes W times now).headD 0 = oldest := by rw [hK]; rfl
      rw [h_oldest] at hge
      have h_collapse : times.filter (fun x => decide (s - W < x))
          = (keptTimes W times now).filter (fun x => decide (s - W < x)) := by
        unfold keptTimes
        rw [List.filter_filter]
        apply List.filter_congr
        intro x hx
        simp
        omega
      rw [h_collapse, hK, List.filter_cons]
      have hnotold : ¬ (s - W < oldest) := by omega
      simp only [hnotold, decide_False, Bool.false_eq_true, if_false]
      have hlen : Ktail.length + 1 = (keptTimes W times now).length := by
        rw [hK]
        rfl
      have := List.length_filter_le (fun x => decide (s - W < x)) Ktail
      omega
  have h_AM : List.Sublist (starts.filter (fun x => decide (s - W < x)))
      (times.filter (fun x => decide (s - W < x))) := by
    have h1 := h_sub2.filter (fun x => decide (s - W < x))
    rw [List.filter_eq_self.mpr (fun x hx => (List.mem_filter.mp hx).2)] at h1
    exact h1
  have hself : s - W < s := by omega
  refine ⟨?_, ?_, ?_⟩
  · rw [List.filter_append]
    simp only [List.filter_cons, List.filter_nil, hself, decide_True, if_true]
    exact List.Sublist.append h_sub3 (List.Sublist.refl _)
  · rw [List.filter_append]
    simp only [List.filter_cons, List.filter_nil, hself, decide_True, if_true,
      List.length_append, List.length_cons, List.length_nil]
    have h1 : List.Sublist ((keptTimes W times now).filter (fun x => decide (s - W < x)))
        (times.filter (fun x => decide (s - W < x))) := by
      unfold keptTimes
      rw [List.filter_filter]
      apply List.monotone_filter_right
      intro x hx
      simp at hx ⊢
      omega
    have := h1.length_le
    omega
  · intro t
    rw [List.filter_append]
    by_cases hwin : (t - W < s ∧ s ≤ t)
    · have hB : List.Sublist
          (starts.filter (fun x => decide (t - W < x) && decide (x ≤ t)))
          (starts.filter (fun x => decide (s - W < x))) := by
        apply List.monotone_filter_right
        intro x hx
        simp at hx ⊢
        omega
      have hblen := (hB.trans h_AM).length_le
      simp only [List.filter_cons, List.filter_nil, hwin.1, hwin.2, decide_True,
        Bool.and_self, if_true, List.length_append, List.length_cons, List.length_nil]
      omega
    · have hfalse : (decide (t - W < s) && decide (s ≤ t)) = false := by
        simpa using hwin
      simp only [List.filter_cons, List.filter_nil, hfalse, Bool.false_eq_true, if_false,
        List.append_nil]
      exact ihC t

/-- The limiter invariant holds along every sequential trace. -/
theorem rl_invariant {N : Nat} {W : Int} (hN : 0 < N) (hW : 0 < W) {lb : Int}
    {times starts : List Int} (tr : RLTrace N W lb times starts) :
    List.Sublist (starts.filter (fun x => decide (lb - W < x))) times
    ∧ (times.filter (fun x => decide (lb - W < x))).length ≤ N
    ∧ (∀ t : Int,
        (starts.filter (fun x => decide (t - W < x) && decide (x ≤ t))).length ≤ N) := by
  induction tr with
  | init t0 => simp
  | @step lb times starts now tr hle ih =>
    obtain ⟨ihA, ihB, ihC⟩ := ih
    simp only [executeStep_fst, executeStep_snd]
    exact rl_step_preserve hN hW hle ihA ihB ihC rfl

/-- Claim C6: along any sequence of sequential `execute` calls against one
limiter instance configured for `N > 0` requests per `W > 0` ms, no
trailing window of `W` ms contains more than `N` task starts.  Moreover,
per call: the state keeps exactly the timestamps newer than `now - W` plus
the new start (recorded before the task runs, so a task that throws still
occupies its slot), a call finding the retained count at the limit starts
only once the oldest retained timestamp has exited the window plus a 10 ms
buffer, and a call below the limit is not delayed. -/
theorem c6_rate_limiter_window_bound {N : Nat} {W lb : Int} {times starts : List Int}
    (hN : 0 < N) (hW : 0 < W) (tr : RLTrace N W lb times starts) :
    (∀ t : Int,
      (starts.filter (fun x => decide (t - W < x) && decide (x ≤ t))).length ≤ N)
    ∧ (∀ (ts : List Int) (now : Int),
        (executeStep N W ts now).1 = keptTimes W ts now ++ [(executeStep N W ts now).2])
    ∧ (∀ (ts : List Int) (now : Int), N ≤ (keptTimes W ts now).length →
        (executeStep N W ts now).2 = max ((keptTimes W ts now).headD 0 + W + 10) now)
    ∧ (∀ (ts : List Int) (now : Int), (keptTimes W ts now).length < N →
        (executeStep N W ts now).2 = now) := by
  refine ⟨(rl_invariant hN hW tr).2.2, ?_, ?_, ?_⟩
  · intro ts now
    rfl
  · intro ts now h
    rw [executeStep_snd]
    unfold waitTime
    simp only [h, if_true]
    by_cases hw : 0 < (keptTimes W ts now).headD 0 + W - now + 10 <;> simp [hw] <;> omega
  · intro ts now h
    rw [executeStep_snd, waitTime_eq_zero_of_lt h]
    omega

/-- Witness for C6: two back-to-back calls at time 0 against a limiter of
1 request per 1000 ms start at 0 and 1010; any 1000 ms window holds at
most one start. -/
theorem c6_rate_limiter_window_bound_witness :
    (([0, 1010] : List Int).filter
      (fun x => decide ((500 : Int) - 1000 < x) && decide (x ≤ (500 : Int)))).length ≤ 1 := by
  have tr2 : RLTrace 1 1000 1010 [0, 1010] [0, 1010] := by
    have t0 : RLTrace 1 1000 0 [] [] := RLTrace.init 0
    have t1 := RLTrace.step 0 t0 (le_refl 0)
    have e1 : executeStep 1 1000 [] 0 = ([0], 0) := by decide
    rw [e1] at t1
    simp only [] at t1
    have t2 := RLTrace.step 0 t1 (by decide)
    have e2 : executeStep 1 1000 [0] 0 = ([0, 1010], 1010) := by decide
    rw [e2] at t2
    simpa using t2
  exact (c6_rate_limiter_window_bound (by decide) (by decide) tr2).1 500

end KnowledgeSync
